import Mathlib

/-!
# Verification of the `agency` actor runtime

A shallow embedding of the `agency` in-process actor runtime
(`src/context.rs`, `src/addr.rs`, `src/agency.rs`, `src/actor.rs`,
`src/request.rs`) together with proofs about its mailbox delivery, actor
lifecycle, supervision loop, request/response protocol and handle identity.

Modelling conventions:
* tokio mpsc channels are modelled as FIFO `List`s (enqueue at the tail,
  dequeue at the head) together with a receiver-side closed flag and
  sender-reference counts; an `await` on a bounded send is modelled by its
  eventual result (the suspension does not change the result, only timing);
* `Uuid::new_v4()` is modelled by a fresh-identifier supply threaded as a
  `Nat` counter (the external uuid crate guarantees fresh identities; the
  spec records "Identity is assigned once at construction and never
  reused");
* async control flow is modelled by explicit state passing; the driving
  loop of `Agency::hire` is given fuel and returns `none` when the fuel is
  insufficient (the loop may genuinely diverge for an actor that never
  stops).
-/

set_option autoImplicit false

namespace AgencyRt

/-- The `SendError` unit error type of `src/addr.rs`
(`pub struct SendError;`, displayed as "actor stopped"). -/
inductive SendError : Type where
  | mk : SendError
deriving Repr, DecidableEq

/-- The shared channel state behind one actor's two mailboxes
(`Context.mailbox`/`Context.priority_mailbox` receiving ends, and the
`Addr.mailer`/`Addr.priority_mailer` sending ends).

`mailbox` is the bounded (capacity 16) normal queue, `priority_mailbox`
the unbounded priority queue, both FIFO (head = oldest).
`receiverClosed` records that the receiving ends were closed
(`Context::next_phase` calls `close()` on both) or dropped.
`mailSenders` / `prioritySenders` count the live sending handles of each
channel (the context's own `Addr`, external `Addr` clones, and — for the
normal channel — boxed `Recipient` senders). -/
structure Mailboxes (Msg : Type) : Type where
  mailbox : List Msg
  priority_mailbox : List Msg
  receiverClosed : Bool
  mailSenders : Nat
  prioritySenders : Nat
deriving Repr, DecidableEq

/-- Capacity of the bounded normal mailbox: `mpsc::channel(16)`
in `Context::new`. -/
def mailboxCapacity : Nat := 16

namespace Addr

variable {Msg : Type}

/-- `Addr::send` (`src/addr.rs`): `self.mailer.send(msg.into()).await
.map_err(|_| SendError)`. The eventual result of the awaited bounded
send: an error exactly when no receiver remains, otherwise the message
is appended to the normal queue (the possible suspension while the
bounded queue is full only delays the same result). The pre-send state
is returned unchanged on the error path ("no partial send"). -/
def send (st : Mailboxes Msg) (msg : Msg) :
    Except SendError Unit × Mailboxes Msg :=
  if st.receiverClosed then (.error .mk, st)
  else (.ok (), { st with mailbox := st.mailbox ++ [msg] })

/-- `Addr::send_priority` (`src/addr.rs`):
`self.priority_mailer.send(msg.into()).map_err(|_| SendError)`.
Never suspends (unbounded queue); errors exactly when no receiver
remains, with the state unchanged on the error path. -/
def send_priority (st : Mailboxes Msg) (msg : Msg) :
    Except SendError Unit × Mailboxes Msg :=
  if st.receiverClosed then (.error .mk, st)
  else (.ok (), { st with priority_mailbox := st.priority_mailbox ++ [msg] })

end Addr

namespace Recipient

variable {Msg : Type}

/-- `Recipient::send` (`src/addr.rs`): the boxed
`RecipientSender::send_to_recipient`, i.e. `self.send(msg.into()).await
.map_err(|_| SendError)` on the erased `mpsc::Sender` — the same normal
mailbox channel the originating `Addr` used. -/
def send (st : Mailboxes Msg) (msg : Msg) :
    Except SendError Unit × Mailboxes Msg :=
  if st.receiverClosed then (.error .mk, st)
  else (.ok (), { st with mailbox := st.mailbox ++ [msg] })

end Recipient

/-- The typed handle `Addr<A>` (`src/addr.rs`): its `Uuid` identity.
The `mailer`/`priority_mailer` sending capabilities are modelled by the
state transformers `Addr.send`/`Addr.send_priority` on `Mailboxes`. -/
structure AddrId : Type where
  id : Nat
deriving Repr, DecidableEq

namespace AddrId

/-- `impl Clone for Addr` (`src/addr.rs`): the clone copies `self.id`
(and clones the two senders). -/
def clone (a : AddrId) : AddrId := { id := a.id }

/-- `impl PartialEq for Addr`: `self.id == other.id`. -/
def beq (a b : AddrId) : Bool := a.id == b.id

/-- `impl Hash for Addr`: the byte stream written to the hasher,
`state.write(b"addr:")` followed by the uuid's hash input. The tag
bytes are those of the ASCII string `addr:`. -/
def hashStream (a : AddrId) : List Nat :=
  [97, 100, 100, 114, 58] ++ [a.id]

end AddrId

/-- The type-erased handle `Recipient<M>` (`src/addr.rs`): its identity.
The boxed sender is modelled by `Recipient.send`. -/
structure RecipientId : Type where
  id : Nat
deriving Repr, DecidableEq

namespace RecipientId

/-- `impl From<Addr<A>> for Recipient<M>`: `id: addr.id`, sender is the
boxed `addr.mailer`. -/
def fromAddr (a : AddrId) : RecipientId := { id := a.id }

/-- `impl PartialEq for Recipient`: `self.id == other.id`. -/
def beq (a b : RecipientId) : Bool := a.id == b.id

/-- `impl Hash for Recipient`: `state.write(b"recipient:")` followed by
the uuid's hash input (tag bytes of the ASCII string `recipient:`). -/
def hashStream (r : RecipientId) : List Nat :=
  [114, 101, 99, 105, 112, 105, 101, 110, 116, 58] ++ [r.id]

end RecipientId

/-- The running-phase `Context<A, Running>` of `src/context.rs`: both
mailbox receiving ends (as the shared channel state), the `stopped`
flag, and its own `Addr` (the self-reference). The `agency` handle is
not needed for the mailbox model. -/
structure Context (Msg : Type) : Type where
  mailboxes : Mailboxes Msg
  stopped : Bool
  addr : AddrId
deriving Repr, DecidableEq

/-- The stopped-phase `Context<A, Stopped>`: produced only by
`Context::next_phase`. -/
structure ContextStopped (Msg : Type) : Type where
  mailboxes : Mailboxes Msg
  stopped : Bool
  addr : AddrId
deriving Repr, DecidableEq

/-- Result of one poll of `Context::message`'s `select! biased`:
either a message is ready (with the successor context), or both queues
are empty but at least one stream is still live so the select suspends,
or both streams are terminated and the `unreachable!` else-arm runs. -/
inductive MessageResult (Msg : Type) : Type where
  | ready (msg : Msg) (rest : Context Msg)
  | waits
  | unreachableArm
deriving Repr, DecidableEq

namespace Context

variable {Msg : Type}

/-- `Context::new` (`src/context.rs`): fresh unbounded priority channel,
fresh bounded (16) normal channel, `stopped: false`, and a fresh `Addr`
holding the two senders — so each channel starts with exactly one live
sender, the context's own. `supply` models the `Uuid::new_v4()` fresh
identifier source and is threaded through. -/
def new (M : Type) (supply : Nat) : Context M × Nat :=
  ({ mailboxes :=
      { mailbox := []
        priority_mailbox := []
        receiverClosed := false
        mailSenders := 1
        prioritySenders := 1 }
     stopped := false
     addr := { id := supply } }, supply + 1)

/-- `Context::address`: `self.addr.clone()`. -/
def address (ctx : Context Msg) : AddrId := ctx.addr.clone

/-- `Context::stop`: `self.stopped = true`. -/
def stop (ctx : Context Msg) : Context Msg := { ctx with stopped := true }

/-- A `ReceiverStream`/`UnboundedReceiverStream` yields `None` (is
terminated) exactly when its buffered queue is exhausted and the channel
can produce nothing more: every sender dropped, or the receiver closed. -/
def streamTerminated (queue : List Msg) (senders : Nat)
    (receiverClosed : Bool) : Prop :=
  queue = [] ∧ (senders = 0 ∨ receiverClosed = true)

instance (queue : List Msg) (senders : Nat) (receiverClosed : Bool)
    [DecidableEq Msg] :
    Decidable (streamTerminated queue senders receiverClosed) := by
  unfold streamTerminated; infer_instance

/-- `Context::message` (`src/context.rs`): `select! { biased; ... }`.
The biased select polls the priority stream first: if it has a buffered
message that branch wins; otherwise the normal stream is polled; if both
yield `None` (both terminated) the `unreachable!` else-arm runs; if
neither is ready and at least one is live, the select suspends. -/
def message (ctx : Context Msg) : MessageResult Msg :=
  match ctx.mailboxes.priority_mailbox with
  | msg :: rest =>
      .ready msg
        { ctx with mailboxes := { ctx.mailboxes with priority_mailbox := rest } }
  | [] =>
      match ctx.mailboxes.mailbox with
      | msg :: rest =>
          .ready msg
            { ctx with mailboxes := { ctx.mailboxes with mailbox := rest } }
      | [] =>
          if (ctx.mailboxes.prioritySenders = 0 ∨
                ctx.mailboxes.receiverClosed = true) ∧
              (ctx.mailboxes.mailSenders = 0 ∨
                ctx.mailboxes.receiverClosed = true) then
            .unreachableArm
          else .waits

/-- `Context::notify` (`src/context.rs`):
`self.addr.send_priority(msg).expect(...)`. `none` models the `expect`
panicking (the priority send failed). -/
def notify (ctx : Context Msg) (msg : Msg) : Option (Context Msg) :=
  match Addr.send_priority ctx.mailboxes msg with
  | (.ok _, st) => some { ctx with mailboxes := st }
  | (.error _, _) => none

/-- `Context::next_phase` (`src/context.rs`): closes both receiving ends
(`self.mailbox.close(); self.priority_mailbox.close()`) and rebuilds the
context in the `Stopped` phase with `stopped: true`. The buffered
messages are kept. -/
def next_phase (ctx : Context Msg) : ContextStopped Msg :=
  { mailboxes := { ctx.mailboxes with receiverClosed := true }
    stopped := true
    addr := ctx.addr }

/-- Repeatedly poll `Context::message`, collecting the ready messages in
the order delivered, stopping at the first poll that does not produce a
message. Used to state the FIFO delivery order. -/
def pendingReads (fuel : Nat) (ctx : Context Msg) : List Msg :=
  match fuel with
  | 0 => []
  | fuel + 1 =>
      match ctx.message with
      | .ready msg rest => msg :: pendingReads fuel rest
      | _ => []

end Context

namespace ContextStopped

variable {Msg : Type}

/-- `Context::<A, Stopped>::drain` (`src/context.rs`):
`self.priority_mailbox.chain(self.mailbox).collect()` — after the close,
each stream yields its buffered messages then terminates, so the drain
is the priority queue followed by the normal queue. -/
def drain (ctx : ContextStopped Msg) : List Msg :=
  ctx.mailboxes.priority_mailbox ++ ctx.mailboxes.mailbox

end ContextStopped

/-! ## Actor lifecycle (`src/actor.rs`, `src/agency.rs`) -/

/-- `StoppingResult` (`src/actor.rs`). -/
inductive StoppingResult : Type where
  | Recover
  | Stop
deriving Repr, DecidableEq

/-- The `Actor` trait (`src/actor.rs`) for an actor with private state
`σ`: the lifecycle callbacks as state transformers (each may use the
context's running-phase operations). The `stopped` callback consumes the
actor and the demoted context and is pure user code, so only its
invocation is recorded by the driver. -/
structure ActorImpl (σ Msg : Type) : Type where
  init : σ → Context Msg → σ × Context Msg
  run : σ → Context Msg → σ × Context Msg
  stopping : σ → Context Msg → σ × Context Msg × StoppingResult

/-- The lifecycle events of the task spawned by `Agency::hire`, in the
order the driving task performs them. `closeEv` is the closing of both
mailboxes inside `ctx.next_phase()`, `stoppedEv` the `actor.stopped`
invocation. -/
inductive LifeEvent : Type where
  | initEv
  | runEv
  | stoppingEv (r : StoppingResult)
  | closeEv
  | stoppedEv
deriving Repr, DecidableEq

/-- The inner `while !ctx.stopped { actor.run(&mut ctx).await }` loop of
`Agency::hire`, with fuel (`none` = not enough fuel to reach the loop
exit). Records one `runEv` per `run` call. -/
def runInner {σ Msg : Type} (a : ActorImpl σ Msg) (fuel : Nat) (s : σ)
    (ctx : Context Msg) : Option (σ × Context Msg × List LifeEvent) :=
  match fuel with
  | 0 => if ctx.stopped then some (s, ctx, []) else none
  | fuel + 1 =>
      if ctx.stopped then some (s, ctx, [])
      else
        match runInner a fuel (a.run s ctx).1 (a.run s ctx).2 with
        | none => none
        | some (s2, ctx2, evs) => some (s2, ctx2, LifeEvent.runEv :: evs)

/-- The outer `loop { while ...; match actor.stopping(...) }` of
`Agency::hire`: after the inner loop exits, `stopping` is consulted;
`Recover` clears the stop flag and resumes the inner loop, `Stop`
breaks out. -/
def runOuter {σ Msg : Type} (a : ActorImpl σ Msg) (fuel : Nat) (s : σ)
    (ctx : Context Msg) : Option (σ × Context Msg × List LifeEvent) :=
  match fuel with
  | 0 => none
  | fuel + 1 =>
      match runInner a fuel s ctx with
      | none => none
      | some (s1, ctx1, evs1) =>
          match a.stopping s1 ctx1 with
          | (s2, ctx2, .Recover) =>
              match runOuter a fuel s2 { ctx2 with stopped := false } with
              | none => none
              | some (s3, ctx3, evs2) =>
                  some (s3, ctx3,
                    evs1 ++ LifeEvent.stoppingEv .Recover :: evs2)
          | (s2, ctx2, .Stop) =>
              some (s2, ctx2, evs1 ++ [LifeEvent.stoppingEv .Stop])

/-- The whole body of the task spawned by `Agency::hire`
(`src/agency.rs` lines 96–113): `init`, the nested loops, then
`actor.stopped(ctx.next_phase())`. Returns the event trace, the demoted
context handed to `stopped`, and the final actor state. -/
def hireTrace {σ Msg : Type} (a : ActorImpl σ Msg) (fuel : Nat) (s0 : σ)
    (ctx0 : Context Msg) :
    Option (List LifeEvent × ContextStopped Msg × σ) :=
  match runOuter a fuel (a.init s0 ctx0).1 (a.init s0 ctx0).2 with
  | none => none
  | some (s2, ctx2, evs) =>
      some (LifeEvent.initEv ::
              (evs ++ [LifeEvent.closeEv, LifeEvent.stoppedEv]),
            ctx2.next_phase, s2)

/-- `Agency::hire` (`src/agency.rs`): builds a fresh `Context`, takes
its address, spawns the driving task, and returns the address at once.
The result is the returned `Addr`, the advanced uuid supply, and the
spawned task's trace. -/
def Agency.hire {σ Msg : Type} (a : ActorImpl σ Msg) (fuel : Nat)
    (s0 : σ) (supply : Nat) :
    AddrId × Nat × Option (List LifeEvent × ContextStopped Msg × σ) :=
  let c := Context.new Msg supply
  (c.1.address, c.2, hireTrace a fuel s0 c.1)

/-- `Agency::hire_with` (`src/agency.rs`): like `hire`, but the spawned
task first calls `A::setup(&mut ctx, args)`; when setup returns `None`
the task body ends immediately (empty event trace), and the address was
already returned to the caller. -/
def Agency.hire_with {σ Msg Args : Type} (a : ActorImpl σ Msg)
    (stp : Context Msg → Args → Option (σ × Context Msg)) (fuel : Nat)
    (args : Args) (supply : Nat) : AddrId × Nat × Option (List LifeEvent) :=
  let c := Context.new Msg supply
  match stp c.1 args with
  | none => (c.1.address, c.2, some [])
  | some sc => (c.1.address, c.2, (hireTrace a fuel sc.1 sc.2).map (·.1))

/-! ## Request / response protocol (`src/request.rs`, `src/addr.rs`) -/

/-- The sending half of the single-use oneshot reply channel
(`oneshot::Sender<Res>` held in `Request.reply_to`). `receiverOpen`
records whether the caller's receiving half is still live
(`is_closed()` is its negation). -/
structure ReplySender (Res : Type) : Type where
  receiverOpen : Bool
deriving Repr, DecidableEq

/-- `Request<Req, Res>` (`src/request.rs`): a payload plus the sending
half of the reply channel. -/
structure Request (Req Res : Type) : Type where
  payload : Req
  reply_to : ReplySender Res
deriving Repr, DecidableEq

namespace Request

variable {Req Res : Type}

/-- `Request::new` (`src/request.rs`): `oneshot::channel()` with the
receiving half handed back to the caller, who is (still) listening, so
the sender starts with its receiver open. -/
def new (payload : Req) : Request Req Res :=
  { payload := payload, reply_to := { receiverOpen := true } }

/-- `Request::handle` (`src/request.rs`):
`if self.reply_to.is_closed() \x7b None \x7d else \x7b Some((self.payload,
self.reply_to)) \x7d`. -/
def handle (r : Request Req Res) : Option (Req × ReplySender Res) :=
  if r.reply_to.receiverOpen = false then none
  else some (r.payload, r.reply_to)

/-- The caller dropping its receiving half (it gave up or its
`request_timeout` elapsed) as observed through the in-flight Request:
the oneshot sender's `is_closed()` becomes true. -/
def dropReceiver (r : Request Req Res) : Request Req Res :=
  { r with reply_to := { receiverOpen := false } }

end Request

/-- What the caller awaiting the oneshot receiver observes once the
responder side is resolved: a delivered value, or the sender dropped
without sending. -/
inductive ReplyOutcome (Res : Type) : Type where
  | value (v : Res)
  | senderDropped
deriving Repr, DecidableEq

/-- Sending `v` through the reply sender, as observed by the awaiting
caller: delivered while the receiver is open; if the receiver was
dropped the value is silently discarded and the caller (who is gone)
observes nothing — from the protocol's point of view the sender ends
without a delivery. -/
def ReplySender.sendValue {Res : Type} (tx : ReplySender Res) (v : Res) :
    ReplyOutcome Res :=
  if tx.receiverOpen then .value v else .senderDropped

/-- `RequestError` (`src/request.rs`). -/
inductive RequestError : Type where
  | ActorStopped
  | SenderDropped
deriving Repr, DecidableEq

/-- `RequestTimeoutError` (`src/request.rs`). -/
inductive RequestTimeoutError : Type where
  | ActorStopped
  | SenderDropped
  | Timeout
deriving Repr, DecidableEq

/-- `Addr::request` (`src/addr.rs`): build a `Request` plus receiver,
send it through the normal mailer (`ActorStopped` if the mailbox is
gone), then await the reply. `embed` is the `Into<A::Msg>` conversion;
`responder` is how the receiving actor eventually resolves the
delivered Request (the awaited oneshot outcome). -/
def Addr.request {Msg Req Res : Type} (st : Mailboxes Msg)
    (embed : Request Req Res → Msg) (payload : Req)
    (responder : Request Req Res → ReplyOutcome Res) :
    Except RequestError Res × Mailboxes Msg :=
  let r := Request.new payload
  match Addr.send st (embed r) with
  | (.error _, st2) => (.error .ActorStopped, st2)
  | (.ok _, st2) =>
      match responder r with
      | .value v => (.ok v, st2)
      | .senderDropped => (.error .SenderDropped, st2)

/-- `Addr::request_timeout` (`src/addr.rs`): as `Addr.request` but the
await is raced against a timer; `timedOut` is the outcome of that race
(`true` = the duration elapsed before a reply or drop was observed). -/
def Addr.request_timeout {Msg Req Res : Type} (st : Mailboxes Msg)
    (embed : Request Req Res → Msg) (payload : Req) (timedOut : Bool)
    (responder : Request Req Res → ReplyOutcome Res) :
    Except RequestTimeoutError Res × Mailboxes Msg :=
  let r := Request.new payload
  match Addr.send st (embed r) with
  | (.error _, st2) => (.error .ActorStopped, st2)
  | (.ok _, st2) =>
      if timedOut then (.error .Timeout, st2)
      else
        match responder r with
        | .value v => (.ok v, st2)
        | .senderDropped => (.error .SenderDropped, st2)

/-- A responding actor that obtains the reply sender via `handle()` on
the received Request and sends `f payload` through it; when `handle`
reports no listener the Request is dropped unanswered, which drops the
reply sender. -/
def handleAndReply {Req Res : Type} (f : Req → Res)
    (r : Request Req Res) : ReplyOutcome Res :=
  match r.handle with
  | some pr => pr.2.sendValue (f pr.1)
  | none => .senderDropped

/-! ## Supervision: `AgencyHandle::wait` (`src/agency.rs`)

`wait` is a `select! \x7b biased; ... \x7d` loop racing the registration
channel (`self.channel.1.recv()`) against `self.futures.next()` on the
`FuturesUnordered` of tracked `JoinHandle`s. The joint behaviour of the
supervisor and the spawned driving tasks is modelled as a labelled
transition system over task identifiers. -/

/-- Joint state of `AgencyHandle::wait` and the spawned tasks.
`pending` is the FIFO registration channel of `JoinHandle`s sent by
`Spawner::spawn`; `tracked` the contents of the `FuturesUnordered`;
`running` the spawned driving tasks that have not yet finished;
`returned` whether `wait` has returned. `nextId` supplies fresh task
identifiers. -/
structure WaitSys : Type where
  nextId : Nat
  pending : List Nat
  tracked : List Nat
  running : List Nat
  returned : Bool
deriving Repr, DecidableEq

/-- State at the moment `wait` is entered, after the orchestrator hired
`k` actors through the paired `Agency`: each hire spawned a task and
sent its handle into the registration channel. -/
def WaitSys.init (k : Nat) : WaitSys :=
  { nextId := k
    pending := List.range k
    tracked := []
    running := List.range k
    returned := false }

/-- One step of the supervision system.

* `hire`: a still-running actor task hires a further actor
  (`Spawner::spawn`: `tokio::task::spawn` then `sender.send(handle)`);
* `finish`: a spawned driving task finishes its body (the actor's full
  lifecycle, through `stopped`);
* `recv`: `wait`'s biased select accepts a registration — the first
  branch, polled first, ready exactly when the channel is non-empty;
* `complete`: `wait` observes one tracked task's completion via
  `futures.next()` — reachable only when the first branch is not ready
  (no pending registration), and `FuturesUnordered` yields only
  finished tasks;
* `ret`: `futures.next()` returns `None` — the set is empty — and no
  registration was pending, so `wait` returns. -/
inductive WaitStep : WaitSys → WaitSys → Prop where
  | hire (s : WaitSys) (t : Nat) (ht : t ∈ s.running) :
      WaitStep s
        { s with
          nextId := s.nextId + 1
          pending := s.pending ++ [s.nextId]
          running := s.running ++ [s.nextId] }
  | finish (s : WaitSys) (t : Nat) (ht : t ∈ s.running) :
      WaitStep s { s with running := s.running.erase t }
  | recv (s : WaitSys) (t : Nat) (rest : List Nat)
      (hp : s.pending = t :: rest) (hr : s.returned = false) :
      WaitStep s { s with pending := rest, tracked := s.tracked ++ [t] }
  | complete (s : WaitSys) (t : Nat) (hp : s.pending = [])
      (htr : t ∈ s.tracked) (hdone : t ∉ s.running)
      (hr : s.returned = false) :
      WaitStep s { s with tracked := s.tracked.erase t }
  | ret (s : WaitSys) (hp : s.pending = []) (htr : s.tracked = [])
      (hr : s.returned = false) :
      WaitStep s { s with returned := true }

/-- States of the supervision system reachable from entering `wait`
with `k` initial hires. -/
def WaitReachable (k : Nat) (s : WaitSys) : Prop :=
  Relation.ReflTransGen WaitStep (WaitSys.init k) s

/-! ## Liveness of a running context (`src/context.rs`)

Every `Context<A, Running>` holds a live clone of its own `Addr`
(`self.addr`), created by `Context::new` and only relinquished by
`next_phase` (which consumes the running context). The operations
available while the context is running are modelled as a step relation;
external handle operations carry the guard that an *external* sender
exists (count at least 2: the context's own plus one more), since
outside code can only clone or drop handles it actually holds. -/

/-- Operations possible while a `Context<A, Running>` is alive. -/
inductive CtxStep {Msg : Type} : Context Msg → Context Msg → Prop where
  | extSend (ctx : Context Msg) (msg : Msg)
      (hs : 2 ≤ ctx.mailboxes.mailSenders)
      (hcap : ctx.mailboxes.mailbox.length < mailboxCapacity) :
      CtxStep ctx { ctx with mailboxes := (Addr.send ctx.mailboxes msg).2 }
  | extSendPriority (ctx : Context Msg) (msg : Msg)
      (hs : 2 ≤ ctx.mailboxes.prioritySenders) :
      CtxStep ctx
        { ctx with mailboxes := (Addr.send_priority ctx.mailboxes msg).2 }
  | extRecipientSend (ctx : Context Msg) (msg : Msg)
      (hs : 2 ≤ ctx.mailboxes.mailSenders)
      (hcap : ctx.mailboxes.mailbox.length < mailboxCapacity) :
      CtxStep ctx
        { ctx with mailboxes := (Recipient.send ctx.mailboxes msg).2 }
  | cloneAddr (ctx : Context Msg) :
      CtxStep ctx
        { ctx with mailboxes :=
            { ctx.mailboxes with
              mailSenders := ctx.mailboxes.mailSenders + 1
              prioritySenders := ctx.mailboxes.prioritySenders + 1 } }
  | dropAddr (ctx : Context Msg)
      (h1 : 2 ≤ ctx.mailboxes.mailSenders)
      (h2 : 2 ≤ ctx.mailboxes.prioritySenders) :
      CtxStep ctx
        { ctx with mailboxes :=
            { ctx.mailboxes with
              mailSenders := ctx.mailboxes.mailSenders - 1
              prioritySenders := ctx.mailboxes.prioritySenders - 1 } }
  | intoRecipient (ctx : Context Msg)
      (h1 : 2 ≤ ctx.mailboxes.mailSenders)
      (h2 : 2 ≤ ctx.mailboxes.prioritySenders) :
      CtxStep ctx
        { ctx with mailboxes :=
            { ctx.mailboxes with
              prioritySenders := ctx.mailboxes.prioritySenders - 1 } }
  | cloneRecipient (ctx : Context Msg)
      (h : 2 ≤ ctx.mailboxes.mailSenders) :
      CtxStep ctx
        { ctx with mailboxes :=
            { ctx.mailboxes with
              mailSenders := ctx.mailboxes.mailSenders + 1 } }
  | dropRecipient (ctx : Context Msg)
      (h : 2 ≤ ctx.mailboxes.mailSenders) :
      CtxStep ctx
        { ctx with mailboxes :=
            { ctx.mailboxes with
              mailSenders := ctx.mailboxes.mailSenders - 1 } }
  | readMessage (ctx rest : Context Msg) (msg : Msg)
      (h : ctx.message = .ready msg rest) :
      CtxStep ctx rest
  | notifySelf (ctx ctx2 : Context Msg) (msg : Msg)
      (h : ctx.notify msg = some ctx2) :
      CtxStep ctx ctx2
  | setStop (ctx : Context Msg) :
      CtxStep ctx ctx.stop

/-- A running context reachable from `Context::new` by the running-phase
operations. -/
def CtxReachable {Msg : Type} (ctx : Context Msg) : Prop :=
  ∃ supply : Nat,
    Relation.ReflTransGen CtxStep ((Context.new Msg supply).1) ctx

/-- The liveness invariant of a running context: its own `Addr` keeps
one sender of each channel alive, and the receiving ends are not yet
closed (`next_phase` has not run). -/
def CtxInv {Msg : Type} (ctx : Context Msg) : Prop :=
  1 ≤ ctx.mailboxes.mailSenders ∧ 1 ≤ ctx.mailboxes.prioritySenders ∧
    ctx.mailboxes.receiverClosed = false

/-- The actor of the spec's recover scenario: `run` calls `ctx.stop()`
(one logical step per call), and `stopping` answers `Recover` on its
first invocation and `Stop` on the second (the state counts `stopping`
calls). -/
def scenarioActor : ActorImpl Nat Unit :=
  { init := fun s ctx => (s, ctx)
    run := fun s ctx => (s, ctx.stop)
    stopping := fun s ctx =>
      (s + 1, ctx, if s = 0 then .Recover else .Stop) }

/-- A stop-immediately actor over `Nat` messages used to instantiate
theorems: `run` calls `ctx.stop()` and `stopping` answers `Stop`. -/
def stopNowActor : ActorImpl Unit Nat :=
  { init := fun s c => (s, c)
    run := fun s c => (s, c.stop)
    stopping := fun s c => (s, c, .Stop) }

/-- A concrete running context used to instantiate theorems: two
priority messages and one normal message pending. -/
def sampleCtx : Context Nat :=
  { mailboxes :=
      { mailbox := [30]
        priority_mailbox := [10, 20]
        receiverClosed := false
        mailSenders := 1
        prioritySenders := 1 }
    stopped := false
    addr := { id := 0 } }

end AgencyRt

namespace AgencyRt

/-! ## Theorems -/

/-- Unfolding `Context::message` when a priority message is pending:
the biased select returns the head (oldest) of the priority queue. -/
theorem message_priority_head {Msg : Type} (ctx : Context Msg) (a : Msg)
    (p : List Msg) (hp : ctx.mailboxes.priority_mailbox = a :: p) :
    ctx.message =
      .ready a
        { ctx with mailboxes := { ctx.mailboxes with priority_mailbox := p } } := by
  unfold Context.message
  rw [hp]

/-- Unfolding `Context::message` when the priority queue is empty and a
normal message is pending. -/
theorem message_mailbox_head {Msg : Type} (ctx : Context Msg) (b : Msg)
    (m : List Msg) (hp : ctx.mailboxes.priority_mailbox = [])
    (hm : ctx.mailboxes.mailbox = b :: m) :
    ctx.message =
      .ready b
        { ctx with mailboxes := { ctx.mailboxes with mailbox := m } } := by
  unfold Context.message
  rw [hp, hm]

/-- Unfolding `Context.pendingReads` at positive fuel. -/
theorem pendingReads_succ {Msg : Type} (fuel : Nat) (ctx : Context Msg) :
    Context.pendingReads (fuel + 1) ctx =
      match ctx.message with
      | .ready msg rest => msg :: Context.pendingReads fuel rest
      | _ => [] := rfl

/-- Reading every pending message delivers the priority queue first,
then the normal queue, each in FIFO order. -/
theorem pendingReads_spec {Msg : Type} (p m : List Msg)
    (ctx : Context Msg) (hp : ctx.mailboxes.priority_mailbox = p)
    (hm : ctx.mailboxes.mailbox = m) :
    Context.pendingReads (p.length + m.length) ctx = p ++ m := by
  induction p generalizing ctx with
  | nil =>
      induction m generalizing ctx with
      | nil => simp [Context.pendingReads]
      | cons b m2 ihm =>
          have hmsg := message_mailbox_head ctx b m2 hp hm
          show Context.pendingReads (0 + (m2.length + 1)) ctx = [] ++ b :: m2
          rw [Nat.zero_add, pendingReads_succ, hmsg]
          simp only [List.nil_append, List.cons.injEq, true_and]
          have := ihm { ctx with
            mailboxes := { ctx.mailboxes with mailbox := m2 } } hp rfl
          simpa using this
  | cons a p2 ihp =>
      have hmsg := message_priority_head ctx a p2 hp
      show Context.pendingReads (p2.length + 1 + m.length) ctx
        = (a :: p2) ++ m
      rw [Nat.add_right_comm p2.length 1 m.length, pendingReads_succ, hmsg]
      simp only [List.cons_append, List.cons.injEq, true_and]
      exact ihp { ctx with
        mailboxes := { ctx.mailboxes with priority_mailbox := p2 } } rfl hm

/-- C1: `Context::message` returns the oldest pending priority-mailbox
message whenever one is pending; only with the priority queue empty does
it return the next normal-mailbox message; sends append at the tail of
the respective queue, so repeated reads deliver each queue in FIFO order
of enqueue, priority queue first. -/
theorem message_priority_precedence_fifo {Msg : Type}
    (ctx : Context Msg) (msg : Msg) :
    (∀ a p, ctx.mailboxes.priority_mailbox = a :: p →
        ctx.message = .ready a
          { ctx with mailboxes :=
              { ctx.mailboxes with priority_mailbox := p } }) ∧
    (∀ b m, ctx.mailboxes.priority_mailbox = [] →
        ctx.mailboxes.mailbox = b :: m →
        ctx.message = .ready b
          { ctx with mailboxes := { ctx.mailboxes with mailbox := m } }) ∧
    ((Addr.send ctx.mailboxes msg).1 = .ok () →
        (Addr.send ctx.mailboxes msg).2.mailbox
          = ctx.mailboxes.mailbox ++ [msg]) ∧
    ((Addr.send_priority ctx.mailboxes msg).1 = .ok () →
        (Addr.send_priority ctx.mailboxes msg).2.priority_mailbox
          = ctx.mailboxes.priority_mailbox ++ [msg]) ∧
    Context.pendingReads
        (ctx.mailboxes.priority_mailbox.length + ctx.mailboxes.mailbox.length)
        ctx
      = ctx.mailboxes.priority_mailbox ++ ctx.mailboxes.mailbox := by
  refine ⟨fun a p hp => message_priority_head ctx a p hp,
    fun b m hp hm => message_mailbox_head ctx b m hp hm, ?_, ?_,
    pendingReads_spec _ _ ctx rfl rfl⟩
  · unfold Addr.send
    split
    · intro h; simp at h
    · intro _; rfl
  · unfold Addr.send_priority
    split
    · intro h; simp at h
    · intro _; rfl

/-- C1 witness: on a context with priority queue `[10, 20]` and normal
queue `[30]`, the head priority message is delivered first and the full
drain order is `[10, 20, 30]`. -/
theorem message_priority_precedence_fifo_witness :
    sampleCtx.message =
      .ready 10
        { sampleCtx with mailboxes :=
            { sampleCtx.mailboxes with priority_mailbox := [20] } } ∧
    Context.pendingReads 3 sampleCtx = [10, 20, 30] := by
  have h := message_priority_precedence_fifo sampleCtx 0
  exact ⟨h.1 10 [20] rfl, h.2.2.2.2⟩

/-- C4: for every payload, if the responding actor obtains the reply
sender via `handle()` on the matching Request and sends its response
through it, `Addr::request(payload)` returns `Ok` of exactly that
response value. -/
theorem request_returns_handled_response {Msg Req Res : Type}
    (st : Mailboxes Msg) (embed : Request Req Res → Msg) (payload : Req)
    (f : Req → Res) (hopen : st.receiverClosed = false) :
    (Addr.request st embed payload (handleAndReply f)).1
      = .ok (f payload) := by
  simp [Addr.request, Addr.send, hopen, handleAndReply, Request.handle,
    Request.new, ReplySender.sendValue]

/-- C4 witness: requesting with payload `3` from a live mailbox, against
a responder that replies with the successor of the payload, yields
`Ok 4`. -/
theorem request_returns_handled_response_witness :
    ({ mailbox := [], priority_mailbox := [], receiverClosed := false,
       mailSenders := 1, prioritySenders := 1 } :
        Mailboxes Nat).receiverClosed = false ∧
    (Addr.request
        ({ mailbox := [], priority_mailbox := [], receiverClosed := false,
           mailSenders := 1, prioritySenders := 1 } : Mailboxes Nat)
        (fun _ => 0) 3 (handleAndReply Nat.succ)).1
      = .ok 4 :=
  ⟨rfl, request_returns_handled_response _ (fun _ => 0) 3 Nat.succ rfl⟩

/-- C5: `Request::handle` returns `Some` of the payload and reply
sender exactly when the caller's receiving end of the one-shot reply
channel is still open, and `None` exactly when it has been dropped
(e.g. the caller gave up or timed out). -/
theorem handle_some_iff_listener {Req Res : Type} (r : Request Req Res) :
    (r.handle = some (r.payload, r.reply_to) ↔
      r.reply_to.receiverOpen = true) ∧
    (r.handle = none ↔ r.reply_to.receiverOpen = false) ∧
    (r.dropReceiver).handle = none := by
  unfold Request.handle Request.dropReceiver
  rcases h : r.reply_to.receiverOpen <;> simp [h]

/-- C6: `Addr::send` and `Addr::send_priority` (and the send half of
`request`/`request_timeout`) fail with the target-stopped error exactly
when the actor's mailbox receiver is gone, succeed otherwise, and on the
error outcome the mailbox contents are unchanged. -/
theorem send_error_iff_stopped {Msg Req Res : Type} (st : Mailboxes Msg)
    (msg : Msg) (embed : Request Req Res → Msg) (payload : Req)
    (timedOut : Bool) (responder : Request Req Res → ReplyOutcome Res) :
    ((Addr.send st msg).1 = .error .mk ↔ st.receiverClosed = true) ∧
    ((Addr.send_priority st msg).1 = .error .mk ↔
      st.receiverClosed = true) ∧
    (st.receiverClosed = false →
      (Addr.send st msg).1 = .ok () ∧
      (Addr.send_priority st msg).1 = .ok ()) ∧
    (st.receiverClosed = true →
      (Addr.send st msg).2 = st ∧ (Addr.send_priority st msg).2 = st) ∧
    (st.receiverClosed = true →
      (Addr.request st embed payload responder).1 = .error .ActorStopped ∧
      (Addr.request_timeout st embed payload timedOut responder).1
        = .error .ActorStopped) := by
  unfold Addr.request Addr.request_timeout
  rcases h : st.receiverClosed <;>
    simp [Addr.send, Addr.send_priority, h]

/-- C6 witness: on a closed mailbox holding `[7]`, both sends report
the target-stopped error and leave the state unchanged; on an open
mailbox both sends succeed. -/
theorem send_error_iff_stopped_witness :
    (Addr.send
        ({ mailbox := [7], priority_mailbox := [], receiverClosed := true,
           mailSenders := 0, prioritySenders := 0 } : Mailboxes Nat) 5).1
      = .error .mk ∧
    (Addr.send
        ({ mailbox := [7], priority_mailbox := [], receiverClosed := true,
           mailSenders := 0, prioritySenders := 0 } : Mailboxes Nat) 5).2
      = { mailbox := [7], priority_mailbox := [], receiverClosed := true,
          mailSenders := 0, prioritySenders := 0 } ∧
    (Addr.send
        ({ mailbox := [7], priority_mailbox := [], receiverClosed := false,
           mailSenders := 1, prioritySenders := 1 } : Mailboxes Nat) 5).1
      = .ok () := by
  refine ⟨?_, ?_, ?_⟩
  · exact (@send_error_iff_stopped Nat Nat Nat _ 5
      (fun _ => 0) 0 false (fun _ => .senderDropped)).1.mpr rfl
  · exact ((@send_error_iff_stopped Nat Nat Nat _ 5
      (fun _ => 0) 0 false (fun _ => .senderDropped)).2.2.2.1 rfl).1
  · exact ((@send_error_iff_stopped Nat Nat Nat _ 5
      (fun _ => 0) 0 false (fun _ => .senderDropped)).2.2.1 rfl).1

/-- C7: `Addr` and `Recipient` equality and hashing are by identifier:
clones of the same `Addr` compare equal and hash identically; the
addresses returned by two separate `hire` calls are never equal; a
`Recipient` derived from an `Addr` inherits its identifier, so
recipients derived from the same address or its clones compare equal. -/
theorem handle_identity_by_id {σ1 σ2 Msg1 Msg2 : Type}
    (a1 : ActorImpl σ1 Msg1) (a2 : ActorImpl σ2 Msg2)
    (fuel1 fuel2 : Nat) (s1 : σ1) (s2 : σ2) (supply : Nat) (a : AddrId) :
    (AddrId.beq a.clone a = true ∧
      a.clone.hashStream = a.hashStream) ∧
    AddrId.beq (Agency.hire a1 fuel1 s1 supply).1
        (Agency.hire a2 fuel2 s2
          (Agency.hire a1 fuel1 s1 supply).2.1).1 = false ∧
    ((RecipientId.fromAddr a).id = a.id ∧
      RecipientId.beq (RecipientId.fromAddr a)
        (RecipientId.fromAddr a.clone) = true) := by
  refine ⟨⟨?_, rfl⟩, ?_, rfl, ?_⟩
  · simp [AddrId.beq, AddrId.clone]
  · simp [Agency.hire, Context.new, Context.address, AddrId.clone,
      AddrId.beq]
  · simp [RecipientId.beq, RecipientId.fromAddr, AddrId.clone]

/-- The inner loop emits only `runEv` events, and it exits only with
the stop flag set. -/
theorem runInner_events {σ Msg : Type} (a : ActorImpl σ Msg) (fuel : Nat)
    (s : σ) (ctx : Context Msg) (s2 : σ) (ctx2 : Context Msg)
    (evs : List LifeEvent)
    (h : runInner a fuel s ctx = some (s2, ctx2, evs)) :
    (∀ ev ∈ evs, ev = LifeEvent.runEv) ∧ ctx2.stopped = true := by
  induction fuel generalizing s ctx s2 ctx2 evs with
  | zero =>
      unfold runInner at h
      by_cases hs : ctx.stopped = true
      · simp [hs] at h
        obtain ⟨rfl, rfl, rfl⟩ := h
        exact ⟨by simp, hs⟩
      · simp [hs] at h
  | succ fuel ih =>
      unfold runInner at h
      by_cases hs : ctx.stopped = true
      · simp [hs] at h
        obtain ⟨rfl, rfl, rfl⟩ := h
        exact ⟨by simp, hs⟩
      · simp [hs] at h
        rcases hrec : runInner a fuel (a.run s ctx).1 (a.run s ctx).2 with
          _ | ⟨s3, ctx3, evs3⟩
        · rw [hrec] at h; simp at h
        · rw [hrec] at h
          simp at h
          obtain ⟨rfl, rfl, rfl⟩ := h
          obtain ⟨hall, hstop⟩ := ih _ _ _ _ _ hrec
          refine ⟨?_, hstop⟩
          intro ev hev
          rcases List.mem_cons.mp hev with h1 | h1
          · exact h1
          · exact hall ev h1

/-- The outer loop emits only `runEv` and `stoppingEv` events. -/
theorem runOuter_events {σ Msg : Type} (a : ActorImpl σ Msg) (fuel : Nat)
    (s : σ) (ctx : Context Msg) (s2 : σ) (ctx2 : Context Msg)
    (evs : List LifeEvent)
    (h : runOuter a fuel s ctx = some (s2, ctx2, evs)) :
    ∀ ev ∈ evs, ev = LifeEvent.runEv ∨ ∃ r, ev = LifeEvent.stoppingEv r := by
  induction fuel generalizing s ctx s2 ctx2 evs with
  | zero => simp [runOuter] at h
  | succ fuel ih =>
      unfold runOuter at h
      rcases hrec : runInner a fuel s ctx with _ | ⟨s1, ctx1, evs1⟩
      · rw [hrec] at h; simp at h
      · rw [hrec] at h
        dsimp only at h
        have hinner := (runInner_events a fuel s ctx s1 ctx1 evs1 hrec).1
        rcases hst : a.stopping s1 ctx1 with ⟨sa, ctxa, verdict⟩
        rw [hst] at h
        rcases verdict with _ | _
        · dsimp only at h
          rcases hrec2 : runOuter a fuel sa { ctxa with stopped := false }
            with _ | ⟨s3, ctx3, evs2⟩
          · rw [hrec2] at h; simp at h
          · rw [hrec2] at h
            simp at h
            obtain ⟨rfl, rfl, rfl⟩ := h
            intro ev hev
            rcases List.mem_append.mp hev with h1 | h1
            · exact Or.inl (hinner ev h1)
            · rcases List.mem_cons.mp h1 with h2 | h2
              · exact Or.inr ⟨_, h2⟩
              · exact ih _ _ _ _ _ hrec2 ev h2
        · simp at h
          obtain ⟨rfl, rfl, rfl⟩ := h
          intro ev hev
          rcases List.mem_append.mp hev with h1 | h1
          · exact Or.inl (hinner ev h1)
          · rcases List.mem_cons.mp h1 with h2 | h2
            · exact Or.inr ⟨_, h2⟩
            · simp at h2

/-- A completed `hire` driving-task trace is the `init` event, the
loop events, then the mailbox close and the `stopped` invocation. -/
theorem hireTrace_shape {σ Msg : Type} (a : ActorImpl σ Msg) (fuel : Nat)
    (s0 : σ) (ctx0 : Context Msg) (tr : List LifeEvent)
    (cs : ContextStopped Msg) (sf : σ)
    (h : hireTrace a fuel s0 ctx0 = some (tr, cs, sf)) :
    ∃ evs, (∀ ev ∈ evs,
        ev = LifeEvent.runEv ∨ ∃ r, ev = LifeEvent.stoppingEv r) ∧
      tr = LifeEvent.initEv ::
        (evs ++ [LifeEvent.closeEv, LifeEvent.stoppedEv]) := by
  unfold hireTrace at h
  rcases hrec : runOuter a fuel (a.init s0 ctx0).1 (a.init s0 ctx0).2 with
    _ | r
  · rw [hrec] at h; simp at h
  · rw [hrec] at h
    obtain ⟨s2, ctx2, evs⟩ := r
    simp at h
    obtain ⟨rfl, _, _⟩ := h
    exact ⟨evs, runOuter_events a fuel _ _ _ _ _ hrec, rfl⟩

/-- C2: the driving task of `hire` runs `run` while the stop flag is
clear; after `stopping` reports `Recover` the flag is cleared and `run`
executes again; after `Stop` the loop exits and `stopped` is invoked
exactly once, at the end. For the actor whose `run` calls `ctx.stop()`
and whose `stopping` answers `Recover` once then `Stop`, the trace is
exactly init, run, stopping(Recover), run, stopping(Stop), close,
stopped. -/
theorem lifecycle_recover_then_stop :
    (∀ {σ Msg : Type} (a : ActorImpl σ Msg) (fuel : Nat) (s0 : σ)
        (ctx0 : Context Msg) (tr : List LifeEvent)
        (cs : ContextStopped Msg) (sf : σ),
      hireTrace a fuel s0 ctx0 = some (tr, cs, sf) →
        tr.count LifeEvent.stoppedEv = 1 ∧
        tr.getLast? = some LifeEvent.stoppedEv) ∧
    (hireTrace scenarioActor 5 0 ((Context.new Unit 0).1)).map
        (fun r => r.1)
      = some [LifeEvent.initEv, LifeEvent.runEv,
          LifeEvent.stoppingEv .Recover, LifeEvent.runEv,
          LifeEvent.stoppingEv .Stop, LifeEvent.closeEv,
          LifeEvent.stoppedEv] := by
  constructor
  · intro σ Msg a fuel s0 ctx0 tr cs sf h
    obtain ⟨evs, hevs, rfl⟩ := hireTrace_shape a fuel s0 ctx0 tr cs sf h
    constructor
    · have hz : evs.count LifeEvent.stoppedEv = 0 := by
        refine List.count_eq_zero.mpr ?_
        intro hmem
        rcases hevs _ hmem with h1 | ⟨r, h1⟩ <;> simp at h1
      simp [List.count_cons, List.count_append, hz]
    · have : LifeEvent.initEv ::
          (evs ++ [LifeEvent.closeEv, LifeEvent.stoppedEv])
          = (LifeEvent.initEv :: (evs ++ [LifeEvent.closeEv]))
              ++ [LifeEvent.stoppedEv] := by simp
      rw [this, List.getLast?_concat]
  · rfl

/-- C2 witness: the trace computed for the recover-once scenario has
exactly one `stopped` invocation, as its final event. -/
theorem lifecycle_recover_then_stop_witness :
    ([LifeEvent.initEv, LifeEvent.runEv, LifeEvent.stoppingEv .Recover,
      LifeEvent.runEv, LifeEvent.stoppingEv .Stop, LifeEvent.closeEv,
      LifeEvent.stoppedEv] : List LifeEvent).count LifeEvent.stoppedEv
        = 1 ∧
    ([LifeEvent.initEv, LifeEvent.runEv, LifeEvent.stoppingEv .Recover,
      LifeEvent.runEv, LifeEvent.stoppingEv .Stop, LifeEvent.closeEv,
      LifeEvent.stoppedEv] : List LifeEvent).getLast?
        = some LifeEvent.stoppedEv :=
  lifecycle_recover_then_stop.1 scenarioActor 5 0
    ((Context.new Unit 0).1) _
    ({ mailboxes :=
        { mailbox := [], priority_mailbox := [], receiverClosed := true,
          mailSenders := 1, prioritySenders := 1 }
       stopped := true, addr := { id := 0 } }) 2 (by rfl)

/-- C8: when `Setup::setup` returns `None`, the task spawned by
`hire_with` performs no lifecycle event at all — `init`, `run`,
`stopping` and `stopped` are never invoked — while `hire_with` still
returns the address of the constructed context. -/
theorem setup_none_skips_lifecycle {σ Msg Args : Type}
    (a : ActorImpl σ Msg)
    (stp : Context Msg → Args → Option (σ × Context Msg)) (fuel : Nat)
    (args : Args) (supply : Nat)
    (hnone : stp (Context.new Msg supply).1 args = none) :
    (Agency.hire_with a stp fuel args supply).2.2 = some [] ∧
    (Agency.hire_with a stp fuel args supply).1
      = ((Context.new Msg supply).1).address ∧
    ((Agency.hire_with a stp fuel args supply).1).id
      = ((Context.new Msg supply).1).addr.id := by
  unfold Agency.hire_with
  simp [hnone, Context.address, AddrId.clone]

/-- C8 witness: hiring `stopNowActor` through a setup that declines
produces no lifecycle events, and the returned address carries the
context's fresh identifier. -/
theorem setup_none_skips_lifecycle_witness :
    (Agency.hire_with stopNowActor
        (fun (_ : Context Nat) (_ : Unit) => none) 4 () 7).2.2
      = some [] ∧
    (Agency.hire_with stopNowActor
        (fun (_ : Context Nat) (_ : Unit) => none) 4 () 7).1
      = { id := 7 } :=
  ⟨(setup_none_skips_lifecycle stopNowActor _ 4 () 7 rfl).1,
    (setup_none_skips_lifecycle stopNowActor _ 4 () 7 rfl).2.1⟩

/-- C10: demoting a running context with `next_phase` closes both
mailbox channels (and the close happens before the `stopped` callback
in the driving task's trace); afterwards every `send`/`send_priority`
through any `Addr` or `Recipient` clone fails with the target-stopped
error, while the messages already enqueued remain retrievable via
`drain`, priority queue first. -/
theorem next_phase_closes_mailboxes {σ Msg : Type} (ctx : Context Msg)
    (msg : Msg) (a : ActorImpl σ Msg) (fuel : Nat) (s0 : σ)
    (tr : List LifeEvent) (cs : ContextStopped Msg) (sf : σ) :
    (ctx.next_phase).mailboxes.receiverClosed = true ∧
    ((Addr.send (ctx.next_phase).mailboxes msg).1 = .error .mk ∧
      (Addr.send (ctx.next_phase).mailboxes msg).2
        = (ctx.next_phase).mailboxes) ∧
    (Addr.send_priority (ctx.next_phase).mailboxes msg).1 = .error .mk ∧
    (Recipient.send (ctx.next_phase).mailboxes msg).1 = .error .mk ∧
    (ctx.next_phase).drain
      = ctx.mailboxes.priority_mailbox ++ ctx.mailboxes.mailbox ∧
    (hireTrace a fuel s0 ctx = some (tr, cs, sf) →
      ∃ pre, tr = pre ++ [LifeEvent.closeEv, LifeEvent.stoppedEv]) := by
  refine ⟨rfl, ⟨?_, ?_⟩, ?_, ?_, rfl, ?_⟩
  · simp [Addr.send, Context.next_phase]
  · simp [Addr.send, Context.next_phase]
  · simp [Addr.send_priority, Context.next_phase]
  · simp [Recipient.send, Context.next_phase]
  · intro h
    obtain ⟨evs, _, rfl⟩ := hireTrace_shape a fuel s0 ctx tr cs sf h
    exact ⟨LifeEvent.initEv :: evs, by simp⟩

/-- C10 witness: on the sample context (priority `[10, 20]`, normal
`[30]`), after `next_phase` a send fails with the stopped error, the
drain is `[10, 20, 30]`, and the stop-now actor's trace ends with the
close followed by the `stopped` invocation. -/
theorem next_phase_closes_mailboxes_witness :
    (Addr.send (sampleCtx.next_phase).mailboxes 5).1 = .error .mk ∧
    (sampleCtx.next_phase).drain = [10, 20, 30] ∧
    ∃ pre, [LifeEvent.initEv, LifeEvent.runEv,
        LifeEvent.stoppingEv .Stop, LifeEvent.closeEv,
        LifeEvent.stoppedEv]
      = pre ++ [LifeEvent.closeEv, LifeEvent.stoppedEv] := by
  have h := next_phase_closes_mailboxes sampleCtx 5 stopNowActor 3 ()
    [LifeEvent.initEv, LifeEvent.runEv, LifeEvent.stoppingEv .Stop,
      LifeEvent.closeEv, LifeEvent.stoppedEv]
    ({ mailboxes :=
        { mailbox := [30], priority_mailbox := [10, 20],
          receiverClosed := true, mailSenders := 1, prioritySenders := 1 }
       stopped := true, addr := { id := 0 } }) ()
  exact ⟨h.2.1.1, h.2.2.2.2.1, h.2.2.2.2.2 (by rfl)⟩

/-- `Context::message` with both queues empty: the select either hits
the unreachable arm (both streams terminated) or suspends. -/
theorem message_empty {Msg : Type} (ctx : Context Msg)
    (hp : ctx.mailboxes.priority_mailbox = [])
    (hm : ctx.mailboxes.mailbox = []) :
    ctx.message =
      if (ctx.mailboxes.prioritySenders = 0 ∨
            ctx.mailboxes.receiverClosed = true) ∧
          (ctx.mailboxes.mailSenders = 0 ∨
            ctx.mailboxes.receiverClosed = true) then
        .unreachableArm
      else .waits := by
  unfold Context.message
  rw [hp, hm]

/-- A successful `message` poll changes only the queues: sender counts
and the receiver-closed flag carry over to the successor context. -/
theorem message_ready_mailboxes {Msg : Type} (ctx rest : Context Msg)
    (msg : Msg) (h : ctx.message = .ready msg rest) :
    rest.mailboxes.mailSenders = ctx.mailboxes.mailSenders ∧
    rest.mailboxes.prioritySenders = ctx.mailboxes.prioritySenders ∧
    rest.mailboxes.receiverClosed = ctx.mailboxes.receiverClosed := by
  rcases hp : ctx.mailboxes.priority_mailbox with _ | ⟨a, p⟩
  · rcases hm : ctx.mailboxes.mailbox with _ | ⟨b, m⟩
    · rw [message_empty ctx hp hm] at h
      split at h <;> simp at h
    · rw [message_mailbox_head ctx b m hp hm] at h
      simp at h
      obtain ⟨-, rfl⟩ := h
      simp
  · rw [message_priority_head ctx a p hp] at h
    simp at h
    obtain ⟨-, rfl⟩ := h
    simp

/-- A successful `notify` changes only the priority queue. -/
theorem notify_some_mailboxes {Msg : Type} (ctx ctx2 : Context Msg)
    (msg : Msg) (h : ctx.notify msg = some ctx2) :
    ctx2.mailboxes.mailSenders = ctx.mailboxes.mailSenders ∧
    ctx2.mailboxes.prioritySenders = ctx.mailboxes.prioritySenders ∧
    ctx2.mailboxes.receiverClosed = ctx.mailboxes.receiverClosed := by
  unfold Context.notify Addr.send_priority at h
  rcases hc : ctx.mailboxes.receiverClosed with _ | _
  · rw [hc] at h
    simp at h
    obtain rfl := h.symm
    simp [hc]
  · rw [hc] at h
    simp at h

/-- Every running-phase operation preserves the liveness invariant. -/
theorem ctxStep_preserves_inv {Msg : Type} {s s2 : Context Msg}
    (h : CtxStep s s2) (hinv : CtxInv s) : CtxInv s2 := by
  obtain ⟨h1, h2, h3⟩ := hinv
  cases h with
  | extSend msg hs hcap =>
      refine ⟨?_, ?_, ?_⟩ <;> simp [Addr.send, h3] <;> omega
  | extSendPriority msg hs =>
      refine ⟨?_, ?_, ?_⟩ <;> simp [Addr.send_priority, h3] <;> omega
  | extRecipientSend msg hs hcap =>
      refine ⟨?_, ?_, ?_⟩ <;> simp [Recipient.send, h3] <;> omega
  | cloneAddr => exact ⟨Nat.le_succ_of_le h1, Nat.le_succ_of_le h2, h3⟩
  | dropAddr ha hb =>
      exact ⟨by dsimp only; omega, by dsimp only; omega, h3⟩
  | intoRecipient ha hb => exact ⟨h1, by dsimp only; omega, h3⟩
  | cloneRecipient ha => exact ⟨Nat.le_succ_of_le h1, h2, h3⟩
  | dropRecipient ha => exact ⟨by dsimp only; omega, h2, h3⟩
  | readMessage a b c =>
      obtain ⟨e1, e2, e3⟩ := message_ready_mailboxes _ _ _ c
      exact ⟨e1 ▸ h1, e2 ▸ h2, e3 ▸ h3⟩
  | notifySelf a b c =>
      obtain ⟨e1, e2, e3⟩ := notify_some_mailboxes _ _ _ c
      exact ⟨e1 ▸ h1, e2 ▸ h2, e3 ▸ h3⟩
  | setStop => exact ⟨h1, h2, h3⟩

/-- Every reachable running context satisfies the liveness invariant:
its own `Addr` keeps at least one sender of each channel alive and the
receivers are not closed. -/
theorem ctxReachable_inv {Msg : Type} (ctx : Context Msg)
    (h : CtxReachable ctx) : CtxInv ctx := by
  obtain ⟨supply, hsteps⟩ := h
  induction hsteps with
  | refl => exact ⟨Nat.le_refl 1, Nat.le_refl 1, rfl⟩
  | tail hsteps hstep ih => exact ctxStep_preserves_inv hstep ih

/-- C9: every reachable running context holds a live clone of its own
`Addr`, so the channel-closed branches are unreachable: the
`unreachable!` else-arm of `Context::message` never executes and the
`expect` in `Context::notify` never panics. -/
theorem running_context_channels_live {Msg : Type} (ctx : Context Msg)
    (h : CtxReachable ctx) :
    ctx.message ≠ .unreachableArm ∧
    ∀ msg, (ctx.notify msg).isSome = true := by
  obtain ⟨h1, h2, h3⟩ := ctxReachable_inv ctx h
  constructor
  · unfold Context.message
    rcases hp : ctx.mailboxes.priority_mailbox with _ | ⟨a, p⟩
    · rcases hm : ctx.mailboxes.mailbox with _ | ⟨b, m⟩
      · have hc : ¬ ((ctx.mailboxes.prioritySenders = 0 ∨
            ctx.mailboxes.receiverClosed = true) ∧
            (ctx.mailboxes.mailSenders = 0 ∨
              ctx.mailboxes.receiverClosed = true)) := by
          rintro ⟨hA, -⟩
          rcases hA with hA | hA
          · omega
          · rw [h3] at hA; exact Bool.false_ne_true hA
        rw [if_neg hc]
        simp
      · simp
    · simp
  · intro msg
    unfold Context.notify Addr.send_priority
    rw [h3]
    simp

/-- C9 witness: the context constructed by `Context::new` is reachable,
its `message` does not hit the unreachable arm, and `notify` succeeds. -/
theorem running_context_channels_live_witness :
    ((Context.new Nat 0).1).message ≠ .unreachableArm ∧
    (((Context.new Nat 0).1).notify 5).isSome = true :=
  ⟨(running_context_channels_live _ ⟨0, Relation.ReflTransGen.refl⟩).1,
    (running_context_channels_live _ ⟨0, Relation.ReflTransGen.refl⟩).2 5⟩

/-- The supervision invariant: every spawned task that has not finished
is held either in the registration channel or in the tracked set, and
once `wait` has returned every spawned task has finished. -/
def WaitInv (s : WaitSys) : Prop :=
  (∀ t ∈ s.running, t ∈ s.pending ∨ t ∈ s.tracked) ∧
  (s.returned = true → s.running = [])

/-- Every step of the supervision system preserves the invariant. -/
theorem waitStep_preserves_inv {s s2 : WaitSys} (h : WaitStep s s2)
    (hinv : WaitInv s) : WaitInv s2 := by
  obtain ⟨h1, h2⟩ := hinv
  cases h with
  | hire t ht =>
      constructor
      · intro u hu
        rcases List.mem_append.mp hu with hu | hu
        · rcases h1 u hu with h3 | h3
          · exact Or.inl (List.mem_append_left _ h3)
          · exact Or.inr h3
        · simp at hu
          exact Or.inl (List.mem_append_right _ (by simp [hu]))
      · intro hret
        exact absurd ht (by simp [h2 hret])
  | finish t ht =>
      constructor
      · intro u hu
        exact h1 u (List.mem_of_mem_erase hu)
      · intro hret
        exact absurd ht (by simp [h2 hret])
  | recv t rest hp hr =>
      constructor
      · intro u hu
        rcases h1 u hu with h3 | h3
        · rw [hp] at h3
          rcases List.mem_cons.mp h3 with h4 | h4
          · exact Or.inr (List.mem_append_right _ (by simp [h4]))
          · exact Or.inl h4
        · exact Or.inr (List.mem_append_left _ h3)
      · intro hret
        rw [hr] at hret
        simp at hret
  | complete t hp htr hdone hr =>
      constructor
      · intro u hu
        rcases h1 u hu with h3 | h3
        · rw [hp] at h3
          simp at h3
        · have hne : u ≠ t := fun he => hdone (he ▸ hu)
          exact Or.inr ((List.mem_erase_of_ne hne).mpr h3)
      · intro hret
        rw [hr] at hret
        simp at hret
  | ret hp htr hr =>
      refine ⟨h1, fun _ => ?_⟩
      refine List.eq_nil_iff_forall_not_mem.mpr fun u hu => ?_
      rcases h1 u hu with h3 | h3
      · rw [hp] at h3; simp at h3
      · rw [htr] at h3; simp at h3

/-- Every reachable state of the supervision system satisfies the
invariant. -/
theorem waitReachable_inv (k : Nat) (s : WaitSys)
    (h : WaitReachable k s) : WaitInv s := by
  unfold WaitReachable at h
  induction h with
  | refl => exact ⟨fun t ht => Or.inl ht, by intro h; simp [WaitSys.init] at h⟩
  | tail hs hstep ih => exact waitStep_preserves_inv hstep ih

/-- Once every spawned task has finished, the `wait` loop drains the
registration channel and the tracked set and returns — by induction on
twice the pending registrations plus the outstanding tracked tasks. -/
theorem wait_drain_measure : ∀ (n : Nat) (s : WaitSys),
    2 * s.pending.length + s.tracked.length ≤ n → s.running = [] →
    s.returned = false →
    ∃ s2, Relation.ReflTransGen WaitStep s s2 ∧ s2.returned = true := by
  intro n
  induction n with
  | zero =>
      intro s hm hrun hret
      have hp : s.pending = [] :=
        List.eq_nil_of_length_eq_zero (by omega)
      have htr : s.tracked = [] :=
        List.eq_nil_of_length_eq_zero (by omega)
      exact ⟨{ s with returned := true },
        Relation.ReflTransGen.single (WaitStep.ret s hp htr hret), rfl⟩
  | succ n ih =>
      intro s hm hrun hret
      rcases hp : s.pending with _ | ⟨t, rest⟩
      · rcases htr : s.tracked with _ | ⟨u, ts⟩
        · exact ⟨{ s with returned := true },
            Relation.ReflTransGen.single (WaitStep.ret s hp htr hret), rfl⟩
        · have hu : u ∈ s.tracked := by rw [htr]; exact List.mem_cons_self u ts
          have hnm : u ∉ s.running := by rw [hrun]; exact List.not_mem_nil u
          have hstep := WaitStep.complete s u hp hu hnm hret
          have hlen : (s.tracked.erase u).length = s.tracked.length - 1 :=
            List.length_erase_of_mem hu
          obtain ⟨s3, hsteps, h3⟩ :=
            ih { s with tracked := s.tracked.erase u }
              (by
                dsimp only
                rw [hp, hlen, htr]
                rw [hp, htr] at hm
                simp only [List.length_nil, List.length_cons] at hm ⊢
                omega)
              hrun hret
          exact ⟨s3, Relation.ReflTransGen.head hstep hsteps, h3⟩
      · have hstep := WaitStep.recv s t rest hp hret
        obtain ⟨s3, hsteps, h3⟩ :=
          ih { s with pending := rest, tracked := s.tracked ++ [t] }
            (by
              dsimp only
              rw [hp] at hm
              simp only [List.length_append, List.length_cons,
                List.length_nil] at hm ⊢
              omega)
            hrun hret
        exact ⟨s3, Relation.ReflTransGen.head hstep hsteps, h3⟩

/-- C3: `AgencyHandle::wait` prefers accepting a newly registered task
handle over polling tracked tasks (a completion is observed, and the
loop returns, only when no registration is pending); it returns only
when no registrations are pending and no tracked tasks are outstanding;
at that point every task spawned through the paired Agency — including
tasks hired by other actors after `wait` began — has completed; and
conversely, once all spawned tasks have completed the loop drains the
remaining registrations and completions and returns. -/
theorem wait_returns_iff_all_done :
    (∀ s s2 : WaitSys, WaitStep s s2 → s.pending ≠ [] →
        s.tracked.length ≤ s2.tracked.length ∧ s2.returned = s.returned) ∧
    (∀ s s2 : WaitSys, WaitStep s s2 → s2.returned = true →
        s.returned = true ∨ (s.pending = [] ∧ s.tracked = [])) ∧
    (∀ (k : Nat) (s : WaitSys), WaitReachable k s → s.returned = true →
        s.running = []) ∧
    (∀ s : WaitSys, s.running = [] → s.returned = false →
        ∃ s2, Relation.ReflTransGen WaitStep s s2 ∧
          s2.returned = true) := by
  refine ⟨?_, ?_, ?_, ?_⟩
  · intro s s2 h hne
    cases h with
    | hire t ht => exact ⟨Nat.le_refl _, rfl⟩
    | finish t ht => exact ⟨Nat.le_refl _, rfl⟩
    | recv t rest hp hr => simp
    | complete t hp htr hdone hr => exact absurd hp hne
    | ret hp htr hr => exact absurd hp hne
  · intro s s2 h hret
    cases h with
    | hire t ht => exact Or.inl hret
    | finish t ht => exact Or.inl hret
    | recv t rest hp hr => rw [hr] at hret; simp at hret
    | complete t hp htr hdone hr => rw [hr] at hret; simp at hret
    | ret hp htr hr => exact Or.inr ⟨hp, htr⟩
  · intro k s h hret
    exact (waitReachable_inv k s h).2 hret
  · intro s hrun hret
    exact wait_drain_measure (2 * s.pending.length + s.tracked.length) s
      (Nat.le_refl _) hrun hret

/-- C3 witness: with one actor hired before `wait`, the first step with
a pending registration is the accept (tracked grows, no return); the
returned state reached from an empty system has no running task left;
and from a quiescent system `wait` reaches a returned state. -/
theorem wait_returns_iff_all_done_witness :
    ((WaitSys.init 1).tracked.length ≤
        ({ WaitSys.init 1 with pending := [], tracked := [0] } :
          WaitSys).tracked.length ∧
      ({ WaitSys.init 1 with pending := [], tracked := [0] } :
          WaitSys).returned = (WaitSys.init 1).returned) ∧
    ({ WaitSys.init 0 with returned := true } : WaitSys).running = [] ∧
    ∃ s2, Relation.ReflTransGen WaitStep (WaitSys.init 0) s2 ∧
      s2.returned = true := by
  refine ⟨?_, ?_, ?_⟩
  · exact wait_returns_iff_all_done.1 (WaitSys.init 1)
      { WaitSys.init 1 with pending := [], tracked := [0] }
      (by
        have h := WaitStep.recv (WaitSys.init 1) 0 [] (by rfl) (by rfl)
        simpa [WaitSys.init] using h)
      (by simp [WaitSys.init])
  · exact wait_returns_iff_all_done.2.2.1 0
      { WaitSys.init 0 with returned := true }
      (Relation.ReflTransGen.single
        (by
          have h := WaitStep.ret (WaitSys.init 0) (by rfl) (by rfl) (by rfl)
          simpa [WaitSys.init] using h))
      rfl
  · exact wait_returns_iff_all_done.2.2.2 (WaitSys.init 0) rfl rfl

end AgencyRt
